import Mathlib

/-!
Verification development for the Engunity document retrieval / question
answering backend.  The Python sources under `backend/app` are shallowly
embedded: text is `List Char`, machine floats are modelled as `ℚ`, fallible
calls return `Except String`, and file persistence is modelled as a trace of
file-system operations.  Each embedded definition mirrors one Python
function; the theorems at the end of the file settle the specification
claims against these definitions.
-/

namespace Engunity

/-! ### Python string primitives

`isPySpace` is the character class used by Python `str.strip()` /
`str.isspace()` restricted to the ASCII range that the backend ever
produces. -/

def isPySpace (c : Char) : Bool :=
  c = ' ' || c = '\t' || c = '\n' || c = '\r' || c = '\x0b' || c = '\x0c'

/-- Python `s.strip()` on text modelled as a character list. -/
def pyStrip (l : List Char) : List Char :=
  ((l.dropWhile isPySpace).reverse.dropWhile isPySpace).reverse

/-- `startsWith pat l` : the pattern `pat` occurs at the head of `l`. -/
def startsWith : List Char → List Char → Bool
  | [], _ => true
  | _ :: _, [] => false
  | p :: ps, c :: cs => p = c && startsWith ps cs

/-- Index of the first occurrence of `pat` in `l`, if any
(Python `l.find(pat)` for a found pattern). -/
def firstOccur (pat : List Char) : List Char → Option Nat
  | [] => if startsWith pat [] then some 0 else none
  | c :: rest =>
    if startsWith pat (c :: rest) then some 0
    else (firstOccur pat rest).map (· + 1)

/-- Text after the first occurrence of `pat`; `none` when `pat` is absent.
For a present pattern this is `l.split(pat)[1] ++ pat ++ l.split(pat)[2] ++ …`,
which is what the chained `split` in the source ultimately consumes. -/
def afterFirst (pat l : List Char) : Option (List Char) :=
  (firstOccur pat l).map (fun i => l.drop (i + pat.length))

/-- Python `l.split(pat)[0]` : the text before the first occurrence of `pat`
(all of `l` when `pat` is absent). -/
def takeUntilPat (pat l : List Char) : List Char :=
  match firstOccur pat l with
  | some i => l.take i
  | none => l

/-- All start indices of occurrences of `pat` in `l`. -/
def occursAt (pat l : List Char) : List Nat :=
  (List.range l.length).filter (fun i => startsWith pat (l.drop i))

/-- Python `int(s)` on an already stripped string: an optional sign followed
by at least one digit; every other shape raises `ValueError`, modelled as
`none`. -/
def parsePyInt (s : List Char) : Option Int :=
  match s with
  | [] => none
  | '-' :: ds =>
    if ds ≠ [] && ds.all Char.isDigit then
      some (-(Int.ofNat (ds.foldl (fun a c => a * 10 + (c.toNat - 48)) 0)))
    else none
  | '+' :: ds =>
    if ds ≠ [] && ds.all Char.isDigit then
      some (Int.ofNat (ds.foldl (fun a c => a * 10 + (c.toNat - 48)) 0))
    else none
  | ds =>
    if ds.all Char.isDigit then
      some (Int.ofNat (ds.foldl (fun a c => a * 10 + (c.toNat - 48)) 0))
    else none

/-! ### Chunker — `DocumentService._create_text_chunks`

The source slides a window of `settings.chunk_size` characters over the
text, advancing by `chunk_size - chunk_overlap`, drops whitespace-only
windows, and tags each emitted chunk with a page number carried across the
loop.  The token counter (`tiktoken`) is an external collaborator and is
abstracted as a function argument `tok`. -/

def pageMarker : List Char := "--- Page".toList

def dashes : List Char := "---".toList

/-- One emitted chunk (`DocumentChunk` fields used by the engine). -/
structure Chunk where
  chunk_index : Nat
  content : List Char
  token_count : Nat
  page_number : Int
deriving DecidableEq

instance : Inhabited Chunk := ⟨⟨0, [], 0, 1⟩⟩

/-- Python `range(0, n, step)` for `step > 0` (the loop header of the
chunker). -/
def pyRange (n step : Nat) : List Nat :=
  (List.range ((n + step - 1) / step)).map (· * step)

/-- The window `text_content[i : i + S]`. -/
def window (S : Nat) (text : List Char) (i : Nat) : List Char :=
  (text.drop i).take S

/-- Page number extracted from a chunk, mirroring the source exactly:
`chunk_text.split("--- Page")[1].split("---")[0].strip()` parsed with
`int(...)`, i.e. the number attached to the FIRST page marker in the chunk;
`none` when the marker is absent or the number fails to parse
(the `except (IndexError, ValueError): pass` branch). -/
def firstMarkerNum (ct : List Char) : Option Int :=
  match afterFirst pageMarker ct with
  | none => none
  | some rest => parsePyInt (pyStrip (takeUntilPat dashes rest))

/-- Loop body of `_create_text_chunks`: skip whitespace-only windows,
update `current_page` from the first parseable page marker, append the
chunk with the next dense index. -/
def chunkStep (S : Nat) (tok : List Char → Nat) (text : List Char)
    (acc : List Chunk × Int) (i : Nat) : List Chunk × Int :=
  let ct := window S text i
  if ct.all isPySpace then acc
  else
    let page :=
      match firstMarkerNum ct with
      | some p => p
      | none => acc.2
    (acc.1 ++ [⟨acc.1.length, ct, tok ct, page⟩], page)

/-- `DocumentService._create_text_chunks` (chunk size `S`, overlap `O`). -/
def createTextChunks (S O : Nat) (tok : List Char → Nat)
    (text : List Char) : List Chunk :=
  ((pyRange text.length (S - O)).foldl (chunkStep S tok text) ([], 1)).1

/-- The kept (non-whitespace) windows of the chunker together with their
start offsets; used to state coverage properties positionally. -/
def keptWindows (S O : Nat) (text : List Char) : List (Nat × List Char) :=
  (pyRange text.length (S - O)).filterMap (fun i =>
    let ct := window S text i
    if ct.all isPySpace then none else some (i, ct))

/-- Modelled from the spec: the claimed page rule scans the chunk for the
MOST RECENT (last) page marker.  This definition follows the claim words
and is compared against `firstMarkerNum`, which is what the source
computes. -/
def lastMarkerNum (ct : List Char) : Option Int :=
  match (occursAt pageMarker ct).getLast? with
  | none => none
  | some i =>
    parsePyInt (pyStrip (takeUntilPat dashes (ct.drop (i + pageMarker.length))))

/-! ### Vector store — `SimpleVectorStore`

Vectors are rational lists.  The source divides the query by its L2 norm
before taking inner products; that norm is a positive scalar common to all
similarity scores (and irrational in general), so the model keeps the raw
inner products: ordering, ties, emptiness and monotonicity statements are
invariant under that positive rescaling, and the zero-norm guard
`np.linalg.norm(q) == 0` is modelled by its exact equivalent
`sumSq q = 0`. -/

def dot (u v : List ℚ) : ℚ := (List.zipWith (fun a b => a * b) u v).sum

def sumSq (v : List ℚ) : ℚ := dot v v

/-- Metadata stored next to each vector (the dictionary built by
`DocumentService._generate_vector_embeddings`). -/
structure ChunkMeta where
  chunk_id : Nat
  content : List Char
  page_number : Int
  chunk_index : Nat
deriving DecidableEq

instance : Inhabited ChunkMeta := ⟨⟨0, [], 1, 0⟩⟩

/-- The pickled per-document payload (`embeddings` matrix plus the parallel
metadata list). -/
structure IndexData where
  embeddings : List (List ℚ)
  metadata : List ChunkMeta
deriving DecidableEq

/-- One search hit as assembled in `SimpleVectorStore.search`. -/
structure SearchResult where
  chunk_id : Nat
  content : List Char
  page_number : Int
  chunk_index : Nat
  relevance_score : ℚ
deriving DecidableEq

/-- `similarities = np.dot(embeddings, query)`. -/
def scores (data : IndexData) (q : List ℚ) : List ℚ :=
  data.embeddings.map (fun e => dot e q)

/-- Order used to model `np.argsort(similarities)[::-1]`: descending by
score; equal scores compare by descending index, because reversing a
stable ascending argsort puts the later index first among ties. -/
def descRel (s : List ℚ) (i j : Nat) : Prop :=
  s.getD j 0 < s.getD i 0 ∨ (s.getD i 0 = s.getD j 0 ∧ j ≤ i)

instance (s : List ℚ) : DecidableRel (descRel s) := fun i j => by
  unfold descRel; infer_instance

instance (s : List ℚ) : IsTotal Nat (descRel s) where
  total i j := by
    unfold descRel
    rcases lt_trichotomy (s.getD i 0) (s.getD j 0) with h | h | h
    · exact Or.inr (Or.inl h)
    · rcases Nat.le_total i j with hij | hij
      · exact Or.inr (Or.inr ⟨h.symm, hij⟩)
      · exact Or.inl (Or.inr ⟨h, hij⟩)
    · exact Or.inl (Or.inl h)

instance (s : List ℚ) : IsTrans Nat (descRel s) where
  trans i j k hij hjk := by
    unfold descRel at *
    rcases hij with h1 | ⟨h1, h1'⟩
    · rcases hjk with h2 | ⟨h2, _⟩
      · exact Or.inl (h2.trans h1)
      · exact Or.inl (h2 ▸ h1)
    · rcases hjk with h2 | ⟨h2, h2'⟩
      · exact Or.inl (h1 ▸ h2)
      · exact Or.inr ⟨h1.trans h2, h2'.trans h1'⟩

/-- `np.argsort(similarities)[::-1]` under the stable-sort reading of
argsort (the numpy insertion sort on small inputs is stable; reversal then
puts later indices first among equal scores). -/
def argsortDesc (s : List ℚ) : List Nat :=
  List.insertionSort (descRel s) (List.range s.length)

/-- The result dictionary built for index `i` of the stored order. -/
def mkResult (data : IndexData) (s : List ℚ) (i : Nat) : SearchResult :=
  { chunk_id := (data.metadata.getD i default).chunk_id
    content := (data.metadata.getD i default).content
    page_number := (data.metadata.getD i default).page_number
    chunk_index := (data.metadata.getD i default).chunk_index
    relevance_score := s.getD i 0 }

/-- `SimpleVectorStore.search`: load the index (missing → `[]`), guard a
zero-norm query (→ `[]`), take the `k` best indices of the descending
argsort, and keep those whose score clears the threshold. -/
def search (store : Nat → Option IndexData) (docId : Nat) (q : List ℚ)
    (k : Nat) (t : ℚ) : List SearchResult :=
  match store docId with
  | none => []
  | some data =>
    if sumSq q = 0 then []
    else
      ((argsortDesc (scores data q)).take k).filterMap (fun i =>
        if t ≤ (scores data q).getD i 0 then
          some (mkResult data (scores data q) i)
        else none)

/-! ### QA orchestrator — `DocumentQAService.ask_question`

The database repository, the access check and the Groq completion call are
external collaborators; they enter as the `docOpt` / `access` / `genAnswer`
arguments.  Wall-clock `processing_time` is not modelled. -/

/-- The slice of the `Document` row that `ask_question` consults. -/
structure DocInfo where
  is_processed : Bool
deriving DecidableEq

/-- A cited source (`ContextSource`). -/
structure ContextSource where
  chunk_id : Nat
  page_number : Int
  content_preview : List Char
  relevance_score : ℚ
deriving DecidableEq

/-- The structured answer (`DocumentQAResponse`). -/
structure QAResponse where
  answer : List Char
  confidence_score : ℚ
  sources : List ContextSource
  document_id : Nat
  chunks_used : Nat
deriving DecidableEq

/-- The content excerpt: the first 150 characters followed by "..." when
the content is longer than 150 characters, the full content otherwise. -/
def preview (c : List Char) : List Char :=
  if 150 < c.length then c.take 150 ++ "...".toList else c

/-- The fixed zero-result answer returned by `ask_question`. -/
def notFoundAnswer : List Char :=
  "I couldn\x27t find relevant information in the document to answer your question.".toList

/-- `DocumentQAService.ask_question`.  `genAnswer` abstracts
`_generate_answer` (one Groq call plus the confidence heuristic); the
search threshold is the hard-coded `0.3`. -/
def askQuestion (store : Nat → Option IndexData) (docOpt : Option DocInfo)
    (access : Bool) (genAnswer : List (List Char) → List Char × ℚ)
    (docId : Nat) (qEmb : List ℚ) (maxChunks : Nat)
    (includeSources : Bool) : Except String QAResponse :=
  match docOpt with
  | none => Except.error "Document not found"
  | some doc =>
    if doc.is_processed = false then Except.error "Document is not yet processed"
    else if access = false then Except.error "Access denied to document"
    else
      let rs := search store docId qEmb maxChunks (3 / 10 : ℚ)
      if rs.isEmpty then
        Except.ok
          { answer := notFoundAnswer
            confidence_score := 0
            sources := []
            document_id := docId
            chunks_used := 0 }
      else
        let contextChunks := rs.map (·.content)
        let srcs := rs.map (fun r =>
          { chunk_id := r.chunk_id
            page_number := r.page_number
            content_preview := preview r.content
            relevance_score := r.relevance_score : ContextSource })
        let ac := genAnswer contextChunks
        Except.ok
          { answer := ac.1
            confidence_score := ac.2
            sources := if includeSources then srcs else []
            document_id := docId
            chunks_used := contextChunks.length }

/-! ### Processing pipeline — `DocumentService.process_document_content`
and `bulk_process_documents`

File download, text extraction, chunk persistence and embedding generation
are fallible collaborators passed in as `Except`-valued arguments.  The
repository row is a `DocRecord`; `applyStatusUpdate` mirrors
`DocumentRepository.update_processing_status`, including its
`if error_message:` truthiness guard. -/

/-- The mutable processing fields of a `Document` row. -/
structure DocRecord where
  status : String
  error_message : Option String
  chunk_count : Option Nat
deriving DecidableEq

/-- `DocumentRepository.update_processing_status`: always sets the status;
sets `error_message` only when the given message is truthy (nonempty);
sets `chunk_count` only when one is given. -/
def applyStatusUpdate (r : DocRecord) (status : String)
    (msg : Option String) (cc : Option Nat) : DocRecord :=
  { status := status
    error_message :=
      match msg with
      | some m => if m = "" then r.error_message else some m
      | none => r.error_message
    chunk_count :=
      match cc with
      | some n => some n
      | none => r.chunk_count }

/-- The `try` block of `process_document_content`: fetch the document
row, download the file, extract and check the text, chunk it, persist the
chunks, generate embeddings; the first failing stage propagates its
message. -/
def pipelineBody (S O : Nat) (tok : List Char → Nat) (docFound : Bool)
    (download : Except String (List Char))
    (extract : List Char → Except String (List Char))
    (saveChunks : List Chunk → Except String Unit)
    (genEmbeds : List Chunk → Except String Unit) : Except String Nat :=
  if docFound = false then Except.error "Document not found"
  else
    match download with
    | Except.error m => Except.error m
    | Except.ok fc =>
      match extract fc with
      | Except.error m => Except.error m
      | Except.ok text =>
        if pyStrip text = [] then
          Except.error "No text content extracted from document"
        else
          match saveChunks (createTextChunks S O tok text) with
          | Except.error m => Except.error m
          | Except.ok _ =>
            match genEmbeds (createTextChunks S O tok text) with
            | Except.error m => Except.error m
            | Except.ok _ => Except.ok (createTextChunks S O tok text).length

/-- `DocumentService.process_document_content`: move to `processing`, run
the stages in order, then either mark `completed` with the chunk count or,
on the first failing stage, mark `failed` with the message of that stage and
re-raise (the second component is the propagated exception). -/
def processDocumentContent (S O : Nat) (tok : List Char → Nat)
    (r0 : DocRecord) (docFound : Bool)
    (download : Except String (List Char))
    (extract : List Char → Except String (List Char))
    (saveChunks : List Chunk → Except String Unit)
    (genEmbeds : List Chunk → Except String Unit) :
    DocRecord × Except String Unit :=
  let r1 := applyStatusUpdate r0 "processing" none none
  match pipelineBody S O tok docFound download extract saveChunks genEmbeds with
  | Except.ok n => (applyStatusUpdate r1 "completed" none (some n), Except.ok ())
  | Except.error m =>
    (applyStatusUpdate r1 "failed" (some m) none, Except.error m)

/-- The summary dictionary built by `bulk_process_documents`. -/
structure BulkResults where
  successful : List Nat
  failed : List (Nat × String)
  total : Nat
deriving DecidableEq

/-- `bulk_process_documents` over the per-document pipeline outcome
`runOne` (each task appends to `successful` or `failed`; the
semaphore-bounded cooperative scheduling only permutes the append order,
modelled here in document order). -/
def bulkProcessDocuments (runOne : Nat → Except String Unit)
    (ids : List Nat) : BulkResults :=
  ids.foldl (fun acc id =>
    match runOne id with
    | Except.ok _ => { acc with successful := acc.successful ++ [id] }
    | Except.error m => { acc with failed := acc.failed ++ [(id, m)] })
    ⟨[], [], ids.length⟩

/-- Whether a pipeline outcome succeeded. -/
def exceptOk : Except String Unit → Bool
  | Except.ok _ => true
  | Except.error _ => false

/-- The per-document failure record collected by the batch driver. -/
def exceptErr (id : Nat) : Except String Unit → Option (Nat × String)
  | Except.ok _ => none
  | Except.error m => some (id, m)

/-! ### Index persistence — file-operation traces

`SimpleVectorStore.create_index` serializes the payload and writes it with
`open(index_path, "wb")` followed by `pickle.dump`; the FAISS variant
writes the index file and the metadata pickle the same way.  Persistence
is modelled as the trace of file-system operations each call performs. -/

inductive FsOp where
  | write (path : String) (blob : IndexData)
  | rename (src dst : String)
  | remove (path : String)
deriving DecidableEq

/-- `SimpleVectorStore._get_index_path`. -/
def indexPath (docId : Nat) : String :=
  "./vector_store/simple_index_" ++ toString docId ++ ".pkl"

/-- `SimpleVectorStore.create_index`: validate, then write the pickled
payload directly to the index path.  Row normalization divides each
embedding by its (generally irrational) L2 norm and is immaterial to the
persistence pattern, so the blob keeps the given rows. -/
def createIndex (embeddingDim : Nat) (docId : Nat)
    (embeddings : List (List ℚ)) (metadata : List ChunkMeta) :
    Except String (List FsOp) :=
  if embeddings.length = 0 then
    Except.error "No embeddings provided for index creation"
  else if embeddings.any (fun e => e.length ≠ embeddingDim) then
    Except.error "Embedding dimension mismatch"
  else
    Except.ok [FsOp.write (indexPath docId) ⟨embeddings, metadata⟩]

/-- `FAISSVectorStore._get_index_path` / `_get_metadata_path`. -/
def faissIndexPath (docId : Nat) : String :=
  "./vector_store/index_" ++ toString docId ++ ".faiss"

def faissMetaPath (docId : Nat) : String :=
  "./vector_store/metadata_" ++ toString docId ++ ".pkl"

/-- `FAISSVectorStore.create_index`: writes the FAISS index file and then
the metadata pickle, both directly to their final paths. -/
def faissCreateIndex (embeddingDim : Nat) (docId : Nat)
    (embeddings : List (List ℚ)) (metadata : List ChunkMeta) :
    Except String (List FsOp) :=
  if embeddings.length = 0 then
    Except.error "No embeddings provided for index creation"
  else if embeddings.any (fun e => e.length ≠ embeddingDim) then
    Except.error "Embedding dimension mismatch"
  else
    Except.ok
      [FsOp.write (faissIndexPath docId) ⟨embeddings, []⟩,
       FsOp.write (faissMetaPath docId) ⟨[], metadata⟩]

/-- Modelled from the spec: the claimed write-then-replace discipline —
every write goes to a path other than the final one, and the final path is
produced by renaming such a fresh file over it. -/
def writeThenReplace (ops : List FsOp) (finalPath : String) : Prop :=
  (∀ p b, FsOp.write p b ∈ ops → p ≠ finalPath) ∧
  (∃ tmp, FsOp.rename tmp finalPath ∈ ops)

/-! ### Upload validation — `api/v1/documents.py upload_document` and
`DocumentService._extract_text` -/

/-- The `allowed_types` list of the upload endpoint. -/
def allowedTypes : List String :=
  ["application/pdf",
   "application/vnd.openxmlformats-officedocument.wordprocessingml.document",
   "text/plain"]

/-- The MIME gate of `upload_document`: a type outside `allowed_types` is
rejected with HTTP 400. -/
def uploadTypeCheck (contentType : String) : Except (Nat × String) Unit :=
  if contentType ∈ allowedTypes then Except.ok ()
  else Except.error (400, "Unsupported file type. Allowed: PDF, DOCX, TXT")

/-- The decoder chosen by `_extract_text`. -/
inductive Extractor where
  | pdf
  | docx
  | plain
  | md
deriving DecidableEq

/-- Dispatch of `DocumentService._extract_text` on the declared MIME
type. -/
def extractorFor (fileType : String) : Except String Extractor :=
  if fileType = "application/pdf" then Except.ok Extractor.pdf
  else if fileType = "application/vnd.openxmlformats-officedocument.wordprocessingml.document" then
    Except.ok Extractor.docx
  else if fileType = "text/plain" then Except.ok Extractor.plain
  else if fileType = "text/markdown" then Except.ok Extractor.md
  else Except.error ("Unsupported file type: " ++ fileType)

deriving instance DecidableEq for Except

/-! ### Concrete fixtures used by counterexamples and witnesses -/

/-- Two stored entries with identical embedding rows (a score tie). -/
def meta0 : ChunkMeta := ⟨0, "alpha".toList, 1, 0⟩

def meta1 : ChunkMeta := ⟨1, "beta".toList, 1, 1⟩

def data01 : IndexData := ⟨[[1, 0], [1, 0]], [meta0, meta1]⟩

/-- A store holding exactly the index of document 0. -/
def store01 : Nat → Option IndexData := fun d => if d = 0 then some data01 else none

def q01 : List ℚ := [1, 0]

/-- A text whose only non-whitespace characters sit 750 positions apart: at
the configured chunk size 400 / overlap 50 the middle window `[350, 750)`
is whitespace-only and gets dropped, leaving positions `[400, 700)` in no
emitted chunk. -/
def covText : List Char := 'a' :: (List.replicate 749 ' ' ++ ['b'])

/-- A text carrying two page markers inside one 400-character window. -/
def pageText : List Char := "--- Page 2 ---x--- Page 3 ---".toList

/-! ### Page rules for comparing code and claim (C9)

`pageOfChunkRule` restates what the chunker computes (first parseable
marker, else the page of the previous chunk, else 1); `pageOfChunkClaim` is the
claimed rule built on the LAST marker. -/

def pageOfChunkRule (cs : List Chunk) (k : Nat) : Int :=
  match firstMarkerNum (cs.getD k default).content with
  | some p => p
  | none => if k = 0 then 1 else (cs.getD (k - 1) default).page_number

/-- Modelled from the spec: the page rule as the claim states it. -/
def pageOfChunkClaim (cs : List Chunk) (k : Nat) : Int :=
  match lastMarkerNum (cs.getD k default).content with
  | some p => p
  | none => if k = 0 then 1 else (cs.getD (k - 1) default).page_number

/-- The `current_page` value after emitting `cs`: the last emitted
page of the last emitted chunk, or the initial 1. -/
def lastPage (cs : List Chunk) : Int :=
  match cs.getLast? with
  | none => 1
  | some c => c.page_number

/-- The page of every emitted chunk follows the first-marker rule. -/
def pagesLinked (cs : List Chunk) : Prop :=
  ∀ k, k < cs.length →
    (cs.getD k default).page_number = pageOfChunkRule cs k

/-! ## Claim theorems -/

/-- C10: for an existing index and a query embedding of zero L2 norm
(equivalently, zero sum of squares), `SimpleVectorStore.search` takes the
`query_norm == 0` guard and returns the empty list; no score is computed,
so no division by zero is performed and no NaN is produced or compared. -/
theorem search_zero_norm_query (store : Nat → Option IndexData) (docId : Nat)
    (q : List ℚ) (k : Nat) (t : ℚ) (data : IndexData)
    (h1 : store docId = some data) (h2 : sumSq q = 0) :
    search store docId q k t = [] := by
  unfold search
  rw [h1]
  simp [h2]

theorem search_zero_norm_query_witness :
    store01 0 = some data01 ∧ sumSq [(0 : ℚ), 0] = 0 ∧
      search store01 0 [0, 0] 5 0 = [] :=
  ⟨rfl, by norm_num [sumSq, dot],
    search_zero_norm_query store01 0 [0, 0] 5 0 data01 rfl
      (by norm_num [sumSq, dot])⟩

/-- C6: `SimpleVectorStore.search` returns the empty list (without
raising) both when no index exists for the document and when no stored
stored vector has a similarity score clearing the threshold. -/
theorem search_missing_or_below_threshold (store : Nat → Option IndexData)
    (docId : Nat) (q : List ℚ) (k : Nat) (t : ℚ) :
    (store docId = none → search store docId q k t = []) ∧
    (∀ data, store docId = some data → (∀ sc ∈ scores data q, sc < t) →
      search store docId q k t = []) := by
  constructor
  · intro h
    unfold search
    rw [h]
  · intro data h hall
    unfold search
    rw [h]
    by_cases hz : sumSq q = 0
    · simp [hz]
    · simp only [if_neg hz]
      refine List.filterMap_eq_nil_iff.mpr ?_
      intro i hi
      have hi' : i ∈ argsortDesc (scores data q) := List.mem_of_mem_take hi
      have hlt : i < (scores data q).length :=
        List.mem_range.mp
          ((List.perm_insertionSort (descRel (scores data q))
            (List.range (scores data q).length)).mem_iff.mp hi')
      have hmem : (scores data q).getD i 0 ∈ scores data q := by
        rw [List.getD_eq_getElem _ _ hlt]
        exact List.getElem_mem hlt
      exact if_neg (not_le.mpr (hall _ hmem))

theorem search_missing_or_below_threshold_witness :
    (store01 1 = none → search store01 1 q01 5 0 = []) ∧
      search store01 0 q01 5 2 = [] :=
  ⟨(search_missing_or_below_threshold store01 1 q01 5 0).1,
    (search_missing_or_below_threshold store01 0 q01 5 2).2 data01 rfl
      (by norm_num [scores, data01, dot, q01])⟩

/-- C4: when the similarity search returns zero results above the 0.3
threshold, `ask_question` returns (rather than raises) the fixed
not-found answer with confidence exactly 0, an empty source list, and
`chunks_used = 0`. -/
theorem ask_question_zero_results (store : Nat → Option IndexData)
    (doc : DocInfo) (access : Bool)
    (genAnswer : List (List Char) → List Char × ℚ) (docId : Nat)
    (qEmb : List ℚ) (maxChunks : Nat) (includeSources : Bool)
    (hproc : doc.is_processed = true) (hacc : access = true)
    (hsearch : search store docId qEmb maxChunks (3 / 10 : ℚ) = []) :
    askQuestion store (some doc) access genAnswer docId qEmb maxChunks
      includeSources = Except.ok ⟨notFoundAnswer, 0, [], docId, 0⟩ := by
  unfold askQuestion
  simp [hproc, hacc, hsearch]

theorem ask_question_zero_results_witness :
    askQuestion (fun _ => none) (some ⟨true⟩) true (fun _ => ([], 0)) 7 [1] 5
      true = Except.ok ⟨notFoundAnswer, 0, [], 7, 0⟩ :=
  ask_question_zero_results (fun _ => none) ⟨true⟩ true (fun _ => ([], 0)) 7
    [1] 5 true rfl rfl rfl

/-- C5 counterexample: an upload declared as `text/markdown` is NOT
accepted — the `allowed_types` gate of the endpoint rejects it with HTTP 400,
contradicting the claim that markdown uploads are accepted. -/
theorem upload_markdown_cex :
    uploadTypeCheck "text/markdown" ≠ Except.ok () ∧
      uploadTypeCheck "text/markdown" =
        Except.error (400, "Unsupported file type. Allowed: PDF, DOCX, TXT") := by
  constructor
  · decide
  · decide

/-- C5 amended: the upload gate accepts exactly
`application/pdf`, DOCX XML and `text/plain`, rejecting every other MIME
type — `text/markdown` included — with a 400 error, even though the
extraction layer itself has a markdown decoder. -/
theorem upload_mime_gate :
    (∀ ct, uploadTypeCheck ct = Except.ok () ↔ ct ∈ allowedTypes) ∧
    (∀ ct, ct ∉ allowedTypes →
      uploadTypeCheck ct =
        Except.error (400, "Unsupported file type. Allowed: PDF, DOCX, TXT")) ∧
    "text/markdown" ∉ allowedTypes ∧
    extractorFor "text/markdown" = Except.ok Extractor.md := by
  refine ⟨fun ct => ?_, fun ct h => ?_, by decide, by decide⟩
  · unfold uploadTypeCheck
    split
    · simp_all
    · simp_all
  · unfold uploadTypeCheck
    exact if_neg h

theorem upload_mime_gate_witness :
    uploadTypeCheck "image/png" =
      Except.error (400, "Unsupported file type. Allowed: PDF, DOCX, TXT") :=
  upload_mime_gate.2.1 "image/png" (by decide)

/-- C1 counterexample: `SimpleVectorStore.create_index` persists by
writing the pickled payload directly to the final index path — the trace
of a successful call contains a write to that very path and no rename, so
the write-then-replace discipline the claim asserts does not hold. -/
theorem create_index_not_atomic_cex :
    createIndex 2 0 [[1, 0]] [meta0] =
      Except.ok [FsOp.write (indexPath 0) ⟨[[1, 0]], [meta0]⟩] ∧
    ¬ writeThenReplace [FsOp.write (indexPath 0) ⟨[[1, 0]], [meta0]⟩]
        (indexPath 0) := by
  refine ⟨by decide, fun h => ?_⟩
  exact h.1 (indexPath 0) ⟨[[1, 0]], [meta0]⟩ (List.mem_singleton.mpr rfl) rfl

/-- C1 amended: every successful `create_index` persists by opening the
final path for writing and dumping the payload in place — a single direct
write for the simple store, and two direct writes (index file, then
metadata pickle) for the FAISS store; neither emits a temp-file write or a
rename. -/
theorem create_index_direct_write (dim docId : Nat)
    (embs : List (List ℚ)) (meta : List ChunkMeta) (tr : List FsOp) :
    (createIndex dim docId embs meta = Except.ok tr →
      tr = [FsOp.write (indexPath docId) ⟨embs, meta⟩]) ∧
    (faissCreateIndex dim docId embs meta = Except.ok tr →
      tr = [FsOp.write (faissIndexPath docId) ⟨embs, []⟩,
            FsOp.write (faissMetaPath docId) ⟨[], meta⟩]) := by
  constructor
  · intro h
    unfold createIndex at h
    split at h
    · exact absurd h (by simp)
    · split at h
      · exact absurd h (by simp)
      · exact (Except.ok.inj h).symm
  · intro h
    unfold faissCreateIndex at h
    split at h
    · exact absurd h (by simp)
    · split at h
      · exact absurd h (by simp)
      · exact (Except.ok.inj h).symm

/-- Keeping only the above-threshold indices: the emitted results are as
many as the surviving indices. -/
lemma length_filterMap_if {α : Type} (g : Nat → α) (p : Nat → Prop)
    [DecidablePred p] (l : List Nat) :
    (l.filterMap (fun i => if p i then some (g i) else none)).length =
      (l.filter (fun i => decide (p i))).length := by
  induction l with
  | nil => rfl
  | cons a l ih =>
    by_cases h : p a
    · simp [h, ih]
    · simp [h, ih]

/-- A pointwise-stronger filter keeps no more elements. -/
lemma filter_length_mono {p q : Nat → Bool} (l : List Nat)
    (h : ∀ a ∈ l, p a = true → q a = true) :
    (l.filter p).length ≤ (l.filter q).length := by
  induction l with
  | nil => exact Nat.le_refl 0
  | cons a l ih =>
    have ih' := ih (fun b hb => h b (List.mem_cons_of_mem a hb))
    by_cases hp : p a
    · rw [List.filter_cons_of_pos hp, List.filter_cons_of_pos (h a (List.mem_cons_self a l) hp)]
      simpa using ih'
    · rw [List.filter_cons_of_neg (by simpa using hp)]
      cases hq : q a
      · rw [List.filter_cons_of_neg (by simp [hq])]
        exact ih'
      · rw [List.filter_cons_of_pos hq]
        exact Nat.le_succ_of_le ih'

/-- C8: for a fixed store, document and query embedding, raising the
`threshold` argument of `SimpleVectorStore.search` never increases the
number of results, and raising `k` never decreases it. -/
theorem search_count_monotone (store : Nat → Option IndexData)
    (docId : Nat) (q : List ℚ) :
    (∀ k t1 t2, t1 ≤ t2 →
      (search store docId q k t2).length ≤ (search store docId q k t1).length) ∧
    (∀ k1 k2 t, k1 ≤ k2 →
      (search store docId q k1 t).length ≤ (search store docId q k2 t).length) := by
  cases hload : store docId with
  | none =>
    constructor
    · intro k t1 t2 _
      simp [search, hload]
    · intro k1 k2 t _
      simp [search, hload]
  | some data =>
    by_cases hz : sumSq q = 0
    · constructor
      · intro k t1 t2 _
        simp [search, hload, hz]
      · intro k1 k2 t _
        simp [search, hload, hz]
    · constructor
      · intro k t1 t2 ht
        unfold search
        rw [hload]
        simp only [if_neg hz]
        rw [length_filterMap_if (mkResult data (scores data q))
              (fun i => t2 ≤ (scores data q).getD i 0),
            length_filterMap_if (mkResult data (scores data q))
              (fun i => t1 ≤ (scores data q).getD i 0)]
        refine filter_length_mono _ (fun a _ ha => ?_)
        have h2 : t2 ≤ (scores data q).getD a 0 := of_decide_eq_true ha
        exact decide_eq_true (ht.trans h2)
      · intro k1 k2 t hk
        unfold search
        rw [hload]
        simp only [if_neg hz]
        have htk : (argsortDesc (scores data q)).take k1 =
            ((argsortDesc (scores data q)).take k2).take k1 := by
          rw [List.take_take, Nat.min_eq_left hk]
        rw [htk]
        exact ((List.take_sublist k1 _).filterMap _).length_le

theorem search_count_monotone_witness :
    (search store01 0 q01 5 1).length ≤ (search store01 0 q01 5 0).length ∧
      (search store01 0 q01 1 0).length ≤ (search store01 0 q01 2 0).length :=
  ⟨(search_count_monotone store01 0 q01).1 5 0 1 (by norm_num),
    (search_count_monotone store01 0 q01).2 1 2 0 (by norm_num)⟩

/-- C7 counterexample: two stored entries with identical vectors tie at
score 1 for the query `[1, 0]`, yet the returned list places the LATER
entry (chunk_index 1) before the earlier one — the earlier entry does not
appear first, because the code reverses an ascending argsort. -/
theorem search_tie_order_cex :
    scores data01 q01 = [1, 1] ∧
    (search store01 0 q01 5 0).map (·.chunk_index) = [1, 0] ∧
    ¬ ((search store01 0 q01 5 0).map (·.chunk_index)).indexOf 0 <
        ((search store01 0 q01 5 0).map (·.chunk_index)).indexOf 1 := by
  have hmap : (search store01 0 q01 5 0).map (·.chunk_index) = [1, 0] := by
    norm_num [search, store01, data01, q01, scores, dot, sumSq, argsortDesc,
      descRel, mkResult, meta0, meta1, List.insertionSort, List.orderedInsert,
      List.filterMap_cons, List.getD]
  refine ⟨by norm_num [scores, data01, q01, dot], hmap, ?_⟩
  rw [hmap]
  decide

/-- C7 amended: `SimpleVectorStore.search` sorts by score descending, but
ties are returned in REVERSE insertion order — for a well-formed index
(metadata entry `i` carries `chunk_index = i`), whenever two results tie
on score, the one appearing earlier in the output has the LARGER
chunk_index. -/
theorem search_tie_reverse_insertion (store : Nat → Option IndexData)
    (docId : Nat) (q : List ℚ) (k : Nat) (t : ℚ) (data : IndexData)
    (hload : store docId = some data)
    (hwf : ∀ i, i < data.metadata.length →
      (data.metadata.getD i default).chunk_index = i)
    (hlen : data.metadata.length = data.embeddings.length) :
    (search store docId q k t).Pairwise (fun r1 r2 =>
      r2.relevance_score < r1.relevance_score ∨
      (r1.relevance_score = r2.relevance_score ∧
        r2.chunk_index < r1.chunk_index)) := by
  unfold search
  rw [hload]
  by_cases hz : sumSq q = 0
  · simp [hz]
  · simp only [if_neg hz]
    have hslen : (scores data q).length = data.embeddings.length :=
      List.length_map _ _
    have h1 : (argsortDesc (scores data q)).Pairwise (descRel (scores data q)) :=
      List.sorted_insertionSort (descRel (scores data q))
        (List.range (scores data q).length)
    have h2 : (argsortDesc (scores data q)).Nodup :=
      ((List.perm_insertionSort (descRel (scores data q))
        (List.range (scores data q).length)).nodup_iff).mpr
        (List.nodup_range _)
    have hmem : ∀ i ∈ argsortDesc (scores data q), i < (scores data q).length :=
      fun i hi => List.mem_range.mp
        ((List.perm_insertionSort (descRel (scores data q))
          (List.range (scores data q).length)).mem_iff.mp hi)
    have h3 : ((argsortDesc (scores data q)).take k).Pairwise
        (fun i j => (descRel (scores data q) i j ∧ i ≠ j) ∧
          i < (scores data q).length ∧ j < (scores data q).length) := by
      have hco := (h1.and h2).sublist
        (List.take_sublist k (argsortDesc (scores data q)))
      refine hco.imp_of_mem ?_
      intro a b ha hb hab
      exact ⟨hab, hmem a (List.mem_of_mem_take ha),
        hmem b (List.mem_of_mem_take hb)⟩
    refine List.pairwise_filterMap.mpr (h3.imp ?_)
    rintro i j ⟨⟨hrel, hne⟩, hi, hj⟩ r1 hr1 r2 hr2
    by_cases hti : t ≤ (scores data q).getD i 0
    · by_cases htj : t ≤ (scores data q).getD j 0
      · rw [if_pos hti] at hr1
        rw [if_pos htj] at hr2
        have e1 : r1 = mkResult data (scores data q) i :=
          (Option.some.inj (Option.mem_def.mp hr1)).symm
        have e2 : r2 = mkResult data (scores data q) j :=
          (Option.some.inj (Option.mem_def.mp hr2)).symm
        have hi' : i < data.metadata.length := hlen ▸ hslen ▸ hi
        have hj' : j < data.metadata.length := hlen ▸ hslen ▸ hj
        subst e1
        subst e2
        rcases hrel with hlt | ⟨heq, hle⟩
        · exact Or.inl hlt
        · refine Or.inr ⟨heq, ?_⟩
          show (data.metadata.getD j default).chunk_index <
            (data.metadata.getD i default).chunk_index
          rw [hwf i hi', hwf j hj']
          exact Nat.lt_of_le_of_ne hle (fun hji => hne hji.symm)
      · rw [if_neg htj] at hr2
        exact absurd hr2 (by simp)
    · rw [if_neg hti] at hr1
      exact absurd hr1 (by simp)

theorem search_tie_reverse_insertion_witness :
    (search store01 0 q01 5 0).Pairwise (fun r1 r2 =>
      r2.relevance_score < r1.relevance_score ∨
      (r1.relevance_score = r2.relevance_score ∧
        r2.chunk_index < r1.chunk_index)) :=
  search_tie_reverse_insertion store01 0 q01 5 0 data01 rfl
    (by decide) (by decide)

/-- C3 counterexample: a stage failing with an EMPTY exception message
moves the document to `failed`, but `update_processing_status` only
stores a truthy message (`if error_message:`), so `error_message` stays
`none` instead of the causing message — the claim fails as stated. -/
theorem pipeline_empty_message_cex :
    (processDocumentContent 400 50 (fun _ => 0) ⟨"pending", none, none⟩ true
        (Except.error "") (fun t => Except.ok t) (fun _ => Except.ok ())
        (fun _ => Except.ok ())).2 = Except.error "" ∧
    (processDocumentContent 400 50 (fun _ => 0) ⟨"pending", none, none⟩ true
        (Except.error "") (fun t => Except.ok t) (fun _ => Except.ok ())
        (fun _ => Except.ok ())).1.status = "failed" ∧
    (processDocumentContent 400 50 (fun _ => 0) ⟨"pending", none, none⟩ true
        (Except.error "") (fun t => Except.ok t) (fun _ => Except.ok ())
        (fun _ => Except.ok ())).1.error_message ≠ some "" := by
  refine ⟨rfl, rfl, ?_⟩
  decide

/-- Accumulator-generalized shape of the `bulk_process_documents` fold. -/
lemma bulk_foldl (runOne : Nat → Except String Unit) (ids : List Nat)
    (acc : BulkResults) :
    ids.foldl (fun acc id =>
      match runOne id with
      | Except.ok _ => { acc with successful := acc.successful ++ [id] }
      | Except.error m => { acc with failed := acc.failed ++ [(id, m)] })
      acc =
    ⟨acc.successful ++ ids.filter (fun i => exceptOk (runOne i)),
      acc.failed ++ ids.filterMap (fun i => exceptErr i (runOne i)),
      acc.total⟩ := by
  induction ids generalizing acc with
  | nil => simp
  | cons a ids ih =>
    cases hr : runOne a with
    | ok u =>
      simp [List.foldl_cons, hr, ih, exceptOk, exceptErr, List.filter_cons,
        List.filterMap_cons]
    | error m =>
      simp [List.foldl_cons, hr, ih, exceptOk, exceptErr, List.filter_cons,
        List.filterMap_cons]

/-- C3 amended: whenever any pipeline stage fails, the document ends in
status `failed`, and `error_message` records the causing message whenever
that message is nonempty (the repository update skips falsy messages);
and the bulk driver runs every document regardless of sibling failures,
collecting successes and per-document-id failure records. -/
theorem pipeline_failure_handling :
    (∀ (S O : Nat) (tok : List Char → Nat) (r0 : DocRecord) (docFound : Bool)
      (download : Except String (List Char))
      (extract : List Char → Except String (List Char))
      (saveChunks : List Chunk → Except String Unit)
      (genEmbeds : List Chunk → Except String Unit) (m : String),
      (processDocumentContent S O tok r0 docFound download extract saveChunks
        genEmbeds).2 = Except.error m →
      (processDocumentContent S O tok r0 docFound download extract saveChunks
        genEmbeds).1.status = "failed" ∧
      (m ≠ "" →
        (processDocumentContent S O tok r0 docFound download extract saveChunks
          genEmbeds).1.error_message = some m)) ∧
    (∀ (runOne : Nat → Except String Unit) (ids : List Nat),
      (bulkProcessDocuments runOne ids).successful =
        ids.filter (fun i => exceptOk (runOne i)) ∧
      (bulkProcessDocuments runOne ids).failed =
        ids.filterMap (fun i => exceptErr i (runOne i)) ∧
      (bulkProcessDocuments runOne ids).total = ids.length) := by
  constructor
  · intro S O tok r0 df dl ex sv ge m h
    unfold processDocumentContent at *
    cases hb : pipelineBody S O tok df dl ex sv ge with
    | ok n =>
      rw [hb] at h
      exact absurd h (by simp)
    | error m' =>
      rw [hb] at h
      have hm : m' = m := by
        simpa using h
      subst hm
      refine ⟨rfl, fun hne => ?_⟩
      simp [applyStatusUpdate, hne]
  · intro runOne ids
    unfold bulkProcessDocuments
    rw [bulk_foldl]
    simp

theorem pipeline_failure_handling_witness :
    (processDocumentContent 400 50 (fun _ => 0) ⟨"pending", none, none⟩ true
        (Except.error "boom") (fun t => Except.ok t) (fun _ => Except.ok ())
        (fun _ => Except.ok ())).1.status = "failed" ∧
    ("boom" ≠ "" →
      (processDocumentContent 400 50 (fun _ => 0) ⟨"pending", none, none⟩ true
          (Except.error "boom") (fun t => Except.ok t) (fun _ => Except.ok ())
          (fun _ => Except.ok ())).1.error_message = some "boom") :=
  pipeline_failure_handling.1 400 50 (fun _ => 0) ⟨"pending", none, none⟩ true
    (Except.error "boom") (fun t => Except.ok t) (fun _ => Except.ok ())
    (fun _ => Except.ok ()) "boom" rfl

/-- The chunker emits exactly the kept windows, in order: mapping the
loop fold to contents coincides with the kept-window list.  Ties the
positional statements about `keptWindows` to `_create_text_chunks`. -/
lemma chunkStep_foldl_contents (S : Nat) (tok : List Char → Nat)
    (text : List Char) (starts : List Nat) :
    ∀ (acc : List Chunk) (pg : Int),
      ((starts.foldl (chunkStep S tok text) (acc, pg)).1).map (·.content) =
        acc.map (·.content) ++
          (starts.filterMap (fun i =>
            if (window S text i).all isPySpace then none
            else some (i, window S text i))).map (·.2) := by
  induction starts with
  | nil =>
    intro acc pg
    simp
  | cons a starts ih =>
    intro acc pg
    rw [List.foldl_cons, List.filterMap_cons]
    by_cases hws : (window S text a).all isPySpace
    · have hstep : chunkStep S tok text (acc, pg) a = (acc, pg) := by
        simp [chunkStep, hws]
      rw [hstep, ih]
      simp [hws]
    · have hstep : chunkStep S tok text (acc, pg) a =
          (acc ++ [⟨acc.length, window S text a, tok (window S text a),
            match firstMarkerNum (window S text a) with
            | some p => p
            | none => pg⟩],
           match firstMarkerNum (window S text a) with
           | some p => p
           | none => pg) := by
        simp [chunkStep, hws]
      rw [hstep, ih]
      simp [hws]

lemma createTextChunks_contents (S O : Nat) (tok : List Char → Nat)
    (text : List Char) :
    (createTextChunks S O tok text).map (·.content) =
      (keptWindows S O text).map (·.2) := by
  unfold createTextChunks keptWindows
  rw [chunkStep_foldl_contents]
  simp

set_option maxRecDepth 8000

/-- C2 counterexample: at the configured chunk size 400 and overlap 50,
position 400 of `covText` lies inside the text but inside NO kept window:
the only window containing it is whitespace-only and is dropped, so its
character range is absent from every chunk. -/
theorem chunk_coverage_cex :
    400 < covText.length ∧
    ∀ w ∈ keptWindows 400 50 covText,
      ¬ (w.1 ≤ 400 ∧ 400 < w.1 + w.2.length) := by
  decide

/-- C2 amended: the chunker covers every character position of the source
text EXCEPT positions whose every containing window is whitespace-only
and therefore dropped — any position covered by no emitted chunk holds a
whitespace character.  Concatenation in chunk order hence reproduces the
text up to overlap duplication and whitespace-only gaps. -/
theorem chunk_uncovered_positions_whitespace (S O : Nat) (hOS : O < S)
    (text : List Char) (p : Nat) (hp : p < text.length)
    (h : ∀ w ∈ keptWindows S O text, ¬ (w.1 ≤ p ∧ p < w.1 + w.2.length)) :
    isPySpace (text.getD p ' ') = true := by
  have hstep : 0 < S - O := Nat.sub_pos_of_lt hOS
  have hile : p / (S - O) * (S - O) ≤ p := Nat.div_mul_le_self p (S - O)
  have hplt : p < p / (S - O) * (S - O) + (S - O) := by
    have hmod : p % (S - O) < S - O := Nat.mod_lt p hstep
    have hdm : (S - O) * (p / (S - O)) + p % (S - O) = p :=
      Nat.div_add_mod p (S - O)
    have hcomm : p / (S - O) * (S - O) = (S - O) * (p / (S - O)) :=
      Nat.mul_comm _ _
    omega
  have himem : p / (S - O) * (S - O) ∈ pyRange text.length (S - O) := by
    unfold pyRange
    refine List.mem_map.mpr ⟨p / (S - O), List.mem_range.mpr ?_, rfl⟩
    have h2 : p / (S - O) ≤ (text.length - 1) / (S - O) :=
      Nat.div_le_div_right (Nat.le_pred_of_lt hp)
    have h3 : text.length + (S - O) - 1 = (text.length - 1) + (S - O) := by
      omega
    rw [h3, Nat.add_div_right _ hstep]
    exact Nat.lt_succ_of_le h2
  have hwlen : (window S text (p / (S - O) * (S - O))).length =
      min S (text.length - p / (S - O) * (S - O)) := by
    simp [window]
  have hcover : p / (S - O) * (S - O) ≤ p ∧
      p < p / (S - O) * (S - O) +
        (window S text (p / (S - O) * (S - O))).length := by
    refine ⟨hile, ?_⟩
    rw [hwlen]
    have h4 : p - p / (S - O) * (S - O) < S := by omega
    omega
  by_cases hall : (window S text (p / (S - O) * (S - O))).all isPySpace
  · have hgw : (window S text (p / (S - O) * (S - O)))[
        (p - p / (S - O) * (S - O))]? = text[p]? := by
      unfold window
      rw [List.getElem?_take, List.getElem?_drop]
      have h4 : p - p / (S - O) * (S - O) < S := by omega
      rw [if_pos h4]
      congr 1
      omega
    have hsome : text[p]? = some (text.getD p ' ') := by
      rw [List.getD_eq_getElem _ _ hp]
      exact List.getElem?_eq_getElem hp
    have hmem : text.getD p ' ' ∈ window S text (p / (S - O) * (S - O)) := by
      refine List.getElem?_mem (n := p - p / (S - O) * (S - O)) ?_
      rw [hgw, hsome]
    exact List.all_eq_true.mp hall _ hmem
  · exfalso
    refine h (p / (S - O) * (S - O),
      window S text (p / (S - O) * (S - O))) ?_ hcover
    unfold keptWindows
    refine List.mem_filterMap.mpr ⟨p / (S - O) * (S - O), himem, ?_⟩
    simp [hall]

theorem chunk_uncovered_positions_whitespace_witness :
    isPySpace (covText.getD 400 ' ') = true :=
  chunk_uncovered_positions_whitespace 400 50 (by decide) covText 400
    (by decide) (by decide)

/-- C9 counterexample: one chunk holding both `--- Page 2 ---` and
`--- Page 3 ---` is tagged with page 2 (the FIRST marker, because the
source takes `split("--- Page")[1]`), while the claimed rule — the most
recent (last) marker — demands 3. -/
theorem chunk_page_last_marker_cex :
    (createTextChunks 400 50 (fun _ => 0) pageText).length = 1 ∧
    lastMarkerNum
      ((createTextChunks 400 50 (fun _ => 0) pageText).getD 0 default).content =
        some 3 ∧
    ((createTextChunks 400 50 (fun _ => 0) pageText).getD 0 default).page_number
      = 2 ∧
    ¬ (∀ k, k < (createTextChunks 400 50 (fun _ => 0) pageText).length →
        ((createTextChunks 400 50 (fun _ => 0) pageText).getD k
            default).page_number =
          pageOfChunkClaim (createTextChunks 400 50 (fun _ => 0) pageText) k) := by
  refine ⟨by decide, by decide, by decide, ?_⟩
  decide

/-- Invariant of the chunker loop: pages already emitted follow the
first-marker rule, and the carried `current_page` equals the last emitted
page (1 initially). -/
lemma chunkStep_foldl_pages (S : Nat) (tok : List Char → Nat)
    (text : List Char) (starts : List Nat) :
    ∀ (acc : List Chunk) (pg : Int),
      pagesLinked acc → pg = lastPage acc →
      pagesLinked (starts.foldl (chunkStep S tok text) (acc, pg)).1 ∧
        (starts.foldl (chunkStep S tok text) (acc, pg)).2 =
          lastPage (starts.foldl (chunkStep S tok text) (acc, pg)).1 := by
  induction starts with
  | nil =>
    intro acc pg h1 h2
    exact ⟨h1, h2⟩
  | cons a starts ih =>
    intro acc pg h1 h2
    rw [List.foldl_cons]
    by_cases hws : (window S text a).all isPySpace
    · have hstep : chunkStep S tok text (acc, pg) a = (acc, pg) := by
        simp [chunkStep, hws]
      rw [hstep]
      exact ih acc pg h1 h2
    · have hstep : chunkStep S tok text (acc, pg) a =
          (acc ++ [⟨acc.length, window S text a, tok (window S text a),
            match firstMarkerNum (window S text a) with
            | some p => p
            | none => pg⟩],
           match firstMarkerNum (window S text a) with
           | some p => p
           | none => pg) := by
        simp [chunkStep, hws]
      rw [hstep]
      refine ih _ _ ?_ ?_
      · intro k hk
        rw [List.length_append, List.length_singleton] at hk
        rcases Nat.lt_succ_iff_lt_or_eq.mp hk with hlt | heq
        · rw [List.getD_append _ _ _ _ hlt]
          unfold pageOfChunkRule
          rw [List.getD_append _ _ _ _ hlt]
          have hlink := h1 k hlt
          unfold pageOfChunkRule at hlink
          rcases hfm : firstMarkerNum ((acc.getD k default).content) with _ | p
          · rw [hfm] at hlink
            by_cases hk0 : k = 0
            · simpa [hfm, hk0] using hlink
            · have hk1 : k - 1 < acc.length := by omega
              simp only [hfm, if_neg hk0] at hlink ⊢
              rw [List.getD_append _ _ _ _ hk1]
              exact hlink
          · rw [hfm] at hlink
            simpa [hfm] using hlink
        · subst heq
          have hgetC : (acc ++ [(⟨acc.length, window S text a,
              tok (window S text a),
              match firstMarkerNum (window S text a) with
              | some p => p
              | none => pg⟩ : Chunk)]).getD acc.length default =
              ⟨acc.length, window S text a, tok (window S text a),
                match firstMarkerNum (window S text a) with
                | some p => p
                | none => pg⟩ := by
            rw [List.getD_append_right _ _ _ _ (le_refl _)]
            simp
          rw [hgetC]
          unfold pageOfChunkRule
          rw [hgetC]
          rcases hfm : firstMarkerNum (window S text a) with _ | p
          · simp only [hfm]
            by_cases hacc : acc.length = 0
            · have hnil : acc = [] := List.length_eq_zero.mp hacc
              subst hnil
              simp [lastPage] at h2
              simpa [hacc] using h2
            · have hk1 : acc.length - 1 < acc.length := by omega
              rw [if_neg hacc, List.getD_append _ _ _ _ hk1]
              rw [h2]
              unfold lastPage
              rw [List.getLast?_eq_getElem?,
                List.getElem?_eq_getElem hk1,
                List.getD_eq_getElem _ _ hk1]
          · simp
      · unfold lastPage
        rw [List.getLast?_concat]

/-- C9 amended: the page number of each emitted chunk comes from the FIRST
page marker in that chunk whose number parses; a chunk with no such
marker inherits the page number of the previous chunk, and the first chunk
defaults to 1. -/
theorem chunk_page_from_first_marker (S O : Nat) (tok : List Char → Nat)
    (text : List Char) (k : Nat)
    (hk : k < (createTextChunks S O tok text).length) :
    ((createTextChunks S O tok text).getD k default).page_number =
      pageOfChunkRule (createTextChunks S O tok text) k := by
  have hinv := chunkStep_foldl_pages S tok text (pyRange text.length (S - O))
    [] 1 (fun k hk => absurd hk (by simp)) (by simp [lastPage])
  exact hinv.1 k hk

theorem chunk_page_from_first_marker_witness :
    ((createTextChunks 400 50 (fun _ => 0) pageText).getD 0
        default).page_number =
      pageOfChunkRule (createTextChunks 400 50 (fun _ => 0) pageText) 0 :=
  chunk_page_from_first_marker 400 50 (fun _ => 0) pageText 0 (by decide)

theorem create_index_direct_write_witness :
    createIndex 2 0 [[1, 0]] [meta0] =
      Except.ok [FsOp.write (indexPath 0) ⟨[[1, 0]], [meta0]⟩] ∧
    [FsOp.write (indexPath 0) (⟨[[1, 0]], [meta0]⟩ : IndexData)] =
      [FsOp.write (indexPath 0) ⟨[[1, 0]], [meta0]⟩] :=
  ⟨by decide,
    (create_index_direct_write 2 0 [[1, 0]] [meta0] _).1 (by decide)⟩

end Engunity
